import Mathlib

/-!
# Verification of `whoosh/analysis.py` (Navezjt/whoosh-reloaded)

Shallow embedding of the analysis module: tokenizers turn a string into a
list of `Token` snapshots (the Python code reuses one mutable `Token` object
and yields it repeatedly; what a consumer observes at each yield is exactly
the snapshot we materialise), filters turn token lists into token lists.

Python attribute slots that the source may leave unassigned (`text`,
`original`, `pos`, `startchar`, `endchar` are only set conditionally) are
modelled as `Option` fields, `none` meaning "slot never assigned" (reading
such a slot in Python raises `AttributeError`).

String semantics are modelled for ASCII input (`str.lower`, `str.islower`,
`\w`, etc. follow the ASCII behaviour of the Python builtins, which is what
every concrete input in the claims uses).
-/

/-- Model of a Python `Token` object (class `Token`, analysis.py lines
104-121): boolean feature flags plus the data slots.  Slots that the source
assigns only conditionally are `Option`-typed; `none` models an unassigned
`__slots__` entry. -/
structure Token where
  positions : Bool
  chars : Bool
  text : Option String
  original : Option String
  pos : Option Nat
  startchar : Option Nat
  endchar : Option Nat
  stopped : Bool
  deriving Repr, DecidableEq

/-- A fresh token as built by `Token.__init__(positions, chars)`: `stopped`
is initialised to `False`, every data slot is unassigned. -/
def Token.init (positions chars : Bool) : Token :=
  { positions := positions, chars := chars,
    text := none, original := none, pos := none,
    startchar := none, endchar := none, stopped := false }

/-- Source `value[s:e]` for `0 ≤ s ≤ e ≤ len value` (Python slice). -/
def sliceStr (value : String) (s e : Nat) : String :=
  ⟨(value.data.drop s).take (e - s)⟩

/-- Python `xrange(a, b)` as a list. -/
def pyRange (a b : Nat) : List Nat := List.range' a (b - a)

/-- Source `NgramTokenizer` state: the `min`/`max` attributes set by `__init__`. -/
structure NgramTokenizer where
  min : Nat
  max : Nat
  deriving Repr, DecidableEq

/-- Source `NgramTokenizer.__init__(minsize, maxsize=None)` (lines 234-242): no
validation is performed; `self.max = maxsize or minsize` (so a `None` or
falsy `0` maxsize falls back to `minsize`).  The constructor is total: the
source contains no `raise` and cannot fail. -/
def NgramTokenizer.init (minsize : Nat) (maxsize : Option Nat) : NgramTokenizer :=
  { min := minsize,
    max := match maxsize with
           | none => minsize
           | some m => if m = 0 then minsize else m }

/-- Source `NgramTokenizer.__call__` (lines 244-263), translated literally:
the outer loop is `xrange(0, inlen - self.min)`, the inner loop
`xrange(self.min, self.max + 1)` with an `end > inlen` guard; `pos` is
incremented once per outer iteration; `t.startchar`/`t.endchar` are set when
`chars` is true and `t.pos` when `positions`.  NOTE: the source never
assigns `t.text` (or `t.original`), so those slots stay unassigned. -/
def NgramTokenizer.call (nt : NgramTokenizer) (value : String)
    (positions chars : Bool) (start_pos start_char : Nat) : List Token :=
  let inlen := value.length
  (pyRange 0 (inlen - nt.min)).flatMap fun start =>
    (pyRange nt.min (nt.max + 1)).filterMap fun size =>
      let e := start + size
      if e > inlen then none
      else some
        { positions := positions, chars := chars,
          text := none, original := none,
          pos := if positions then some (start_pos + start) else none,
          startchar := if chars then some (start_char + start) else none,
          endchar := if chars then some (start_char + e) else none,
          stopped := false }

/-- Source `NgramFilter` state set by `__init__` (lines 284-292); identical to the
tokenizer's: no validation, `self.max = maxsize or minsize`. -/
structure NgramFilter where
  min : Nat
  max : Nat
  deriving Repr, DecidableEq

/-- Source `NgramFilter.__init__(minsize, maxsize=None)`: total, no validation. -/
def NgramFilter.init (minsize : Nat) (maxsize : Option Nat) : NgramFilter :=
  { min := minsize,
    max := match maxsize with
           | none => minsize
           | some m => if m = 0 then minsize else m }

/-- Source `NgramFilter.__call__` (lines 294-314): for each token, loops
`xrange(0, len(text) - self.min)` × `xrange(self.min, self.max + 1)` with an
`end > len(text)` guard, setting `t.text = text[start:end]` and shifting
`startchar`/`endchar` from the token's incoming `startchar` when `chars`.
A token whose `text` slot is unassigned would raise in Python; it
contributes nothing here and no theorem relies on that case. -/
def NgramFilter.call (nf : NgramFilter) (ts : List Token) : List Token :=
  ts.flatMap fun t =>
    match t.text with
    | none => []
    | some text =>
      (pyRange 0 (text.length - nf.min)).flatMap fun start =>
        (pyRange nf.min (nf.max + 1)).filterMap fun size =>
          let e := start + size
          if e > text.length then none
          else some
            { t with
              text := some (sliceStr text start e),
              startchar := if t.chars then t.startchar.map (· + start) else t.startchar,
              endchar := if t.chars then t.startchar.map (· + e) else t.endchar }

/-- The three stock tokenizer expressions — `\w+` (RegexTokenizer default,
ASCII reading of `re.UNICODE` word chars), `[^ \t\r\n]+`
(SpaceSeparatedTokenizer) and `[^,]+` (CommaSeparatedTokenizer) — all match
maximal runs of characters satisfying a predicate.  `runsAux p cs i o`
scans the remaining characters `cs`, `i` being the absolute index of the
head of `cs` and `o = some s` recording that a run began at index `s` and
is still open; it returns the `(start, end)` index pairs of the maximal
runs, exactly the `(m.start(), m.end())` pairs `re.finditer` produces for
such patterns. -/
def runsAux (p : Char → Bool) : List Char → Nat → Option Nat → List (Nat × Nat)
  | [], _, none => []
  | [], i, some s => [(s, i)]
  | c :: cs, i, none =>
      if p c then runsAux p cs (i + 1) (some i) else runsAux p cs (i + 1) none
  | c :: cs, i, some s =>
      if p c then runsAux p cs (i + 1) (some s)
      else (s, i) :: runsAux p cs (i + 1) none

/-- Source `re.finditer(expression, value)` match spans, for a maximal-run
expression `[p]+`. -/
def finditerRuns (p : Char → Bool) (value : String) : List (Nat × Nat) :=
  runsAux p value.data 0 none

/-- ASCII `\w` (the `re.UNICODE` default expression of `RegexTokenizer`,
line 147, restricted to ASCII input): letters, digits, underscore. -/
def isWordChar (c : Char) : Bool := c.isAlphanum || c = '_'

/-- Source `[^ \t\r\n]` — the `SpaceSeparatedTokenizer` expression (line 195). -/
def isNotSpace (c : Char) : Bool := !(c = ' ' || c = '\t' || c = '\r' || c = '\n')

/-- Source `[^,]` — the `CommaSeparatedTokenizer` expression (line 203). -/
def isNotComma (c : Char) : Bool := !(c = ',')

/-- Python `str.isspace` on the ASCII whitespace characters, as used by
`str.strip()`. -/
def pyIsSpace (c : Char) : Bool :=
  c = ' ' || c = '\t' || c = '\n' || c = '\r' || c = '\x0b' || c = '\x0c'

/-- Python `str.strip()`: remove leading and trailing whitespace. -/
def pyStrip (s : String) : String :=
  ⟨((s.data.dropWhile pyIsSpace).reverse.dropWhile pyIsSpace).reverse⟩

/-- The loop body of `RegexTokenizer.__call__` (lines 177-187) over the
already-computed match spans: for the match at position `pos` with span
`(ms, me)`, set `text = original = match.group(0)` (the matched slice),
`stopped = False`, `pos` when positions are active, and the shifted char
offsets when char offsets are active. -/
def regexTokensAux (value : String) (positions chars : Bool) (start_char : Nat) :
    List (Nat × Nat) → Nat → List Token
  | [], _ => []
  | (ms, me) :: rs, pos =>
    { positions := positions, chars := chars,
      text := some (sliceStr value ms me),
      original := some (sliceStr value ms me),
      pos := if positions then some pos else none,
      startchar := if chars then some (start_char + ms) else none,
      endchar := if chars then some (start_char + me) else none,
      stopped := false } :: regexTokensAux value positions chars start_char rs (pos + 1)

/-- Source `RegexTokenizer.__call__(value, positions, chars, start_pos, start_char)`
(lines 162-187) for a maximal-run expression given by the predicate `p`. -/
def RegexTokenizer.call (p : Char → Bool) (value : String)
    (positions chars : Bool) (start_pos start_char : Nat) : List Token :=
  regexTokensAux value positions chars start_char (finditerRuns p value) start_pos

/-- The loop body of `CommaSeparatedTokenizer.__call__` (lines 209-217):
identical to `regexTokensAux` except `text = original =
match.group(0).strip()` while `startchar`/`endchar` still span the
unstripped match. -/
def commaTokensAux (value : String) (positions chars : Bool) (start_char : Nat) :
    List (Nat × Nat) → Nat → List Token
  | [], _ => []
  | (ms, me) :: rs, pos =>
    { positions := positions, chars := chars,
      text := some (pyStrip (sliceStr value ms me)),
      original := some (pyStrip (sliceStr value ms me)),
      pos := if positions then some pos else none,
      startchar := if chars then some (start_char + ms) else none,
      endchar := if chars then some (start_char + me) else none,
      stopped := false } :: commaTokensAux value positions chars start_char rs (pos + 1)

/-- Source `CommaSeparatedTokenizer.__call__` (lines 205-217). -/
def CommaSeparatedTokenizer.call (value : String)
    (positions chars : Bool) (start_pos start_char : Nat) : List Token :=
  commaTokensAux value positions chars start_char
    (finditerRuns isNotComma value) start_pos

/-- Source `SpaceSeparatedTokenizer.__call__`: `RegexTokenizer.__call__` with the
`[^ \t\r\n]+` expression. -/
def SpaceSeparatedTokenizer.call (value : String)
    (positions chars : Bool) (start_pos start_char : Nat) : List Token :=
  RegexTokenizer.call isNotSpace value positions chars start_pos start_char

/-- Source `IDTokenizer` (lines 125-139): yields the whole input as one token;
note the source's `t.pos = start_pos + 1`. -/
def IDTokenizer (value : String) (positions chars : Bool)
    (start_pos start_char : Nat) : List Token :=
  [{ positions := positions, chars := chars,
     text := some value, original := some value,
     pos := if positions then some (start_pos + 1) else none,
     startchar := if chars then some start_char else none,
     endchar := if chars then some (start_char + value.length) else none,
     stopped := false }]

/-- The `[startchar, endchar)` spans recorded on a token stream (tokens
with either offset slot unassigned contribute nothing). -/
def spansOf (ts : List Token) : List (Nat × Nat) :=
  ts.filterMap fun t =>
    match t.startchar, t.endchar with
    | some s, some e => some (s, e)
    | _, _ => none

/-- Every span produced by the run scanner lies between the scan origin and
the end of the scanned text, and is nonempty.  The hypothesis says an open
run started strictly before the current index. -/
theorem runsAux_bounds (p : Char → Bool) :
    ∀ (cs : List Char) (i : Nat) (o : Option Nat),
      (∀ s, o = some s → s < i) →
      ∀ r ∈ runsAux p cs i o,
        o.getD i ≤ r.1 ∧ r.1 < r.2 ∧ r.2 ≤ i + cs.length
  | [], i, o, h => by
    intro r hr
    cases o with
    | none => simp [runsAux] at hr
    | some s =>
      simp only [runsAux, List.mem_singleton] at hr
      subst hr
      exact ⟨Nat.le_refl _, h s rfl, by simp⟩
  | c :: cs, i, o, h => by
    intro r hr
    cases o with
    | none =>
      rw [runsAux] at hr
      split at hr
      · have := runsAux_bounds p cs (i + 1) (some i)
          (by intro s hs; cases hs; omega) r hr
        simp only [Option.getD_some, Option.getD_none, List.length_cons] at this ⊢
        omega
      · have := runsAux_bounds p cs (i + 1) none (by intro s hs; cases hs) r hr
        simp only [Option.getD_some, Option.getD_none, List.length_cons] at this ⊢
        omega
    | some s =>
      rw [runsAux] at hr
      split at hr
      · have := runsAux_bounds p cs (i + 1) (some s)
          (by intro s' hs'; cases hs'; exact Nat.lt_succ_of_lt (h s rfl)) r hr
        simp only [Option.getD_some, Option.getD_none, List.length_cons] at this ⊢
        omega
      · rcases List.mem_cons.mp hr with hr | hr
        · subst hr
          exact ⟨Nat.le_refl _, h s rfl, by simp⟩
        · have := runsAux_bounds p cs (i + 1) none (by intro s' hs'; cases hs') r hr
          have hs := h s rfl
          simp only [Option.getD_some, Option.getD_none, List.length_cons] at this ⊢
          omega

/-- The spans produced by the run scanner are pairwise ordered: each span
ends no later than any later span starts. -/
theorem runsAux_pairwise (p : Char → Bool) :
    ∀ (cs : List Char) (i : Nat) (o : Option Nat),
      (∀ s, o = some s → s < i) →
      (runsAux p cs i o).Pairwise (fun a b => a.2 ≤ b.1)
  | [], i, o, _ => by
    cases o <;> simp [runsAux]
  | c :: cs, i, o, h => by
    cases o with
    | none =>
      rw [runsAux]
      split
      · exact runsAux_pairwise p cs (i + 1) (some i) (by intro s hs; cases hs; omega)
      · exact runsAux_pairwise p cs (i + 1) none (by intro s hs; cases hs)
    | some s =>
      rw [runsAux]
      split
      · exact runsAux_pairwise p cs (i + 1) (some s)
          (by intro s' hs'; cases hs'; exact Nat.lt_succ_of_lt (h s rfl))
      · refine List.pairwise_cons.mpr ⟨?_, ?_⟩
        · intro r hr
          have := runsAux_bounds p cs (i + 1) none (by intro s' hs'; cases hs') r hr
          simp only [Option.getD_none] at this
          omega
        · exact runsAux_pairwise p cs (i + 1) none (by intro s' hs'; cases hs')

/-- Bounds for the spans of `re.finditer` on a maximal-run pattern: each
match is a nonempty in-bounds span of the input. -/
theorem finditerRuns_bounds (p : Char → Bool) (value : String) :
    ∀ r ∈ finditerRuns p value, r.1 < r.2 ∧ r.2 ≤ value.length := by
  intro r hr
  have := runsAux_bounds p value.data 0 none (by intro s hs; cases hs) r hr
  have hlen : value.data.length = value.length := rfl
  simp only [Option.getD_none] at this
  exact ⟨this.2.1, by omega⟩

/-- The spans of `re.finditer` on a maximal-run pattern never overlap. -/
theorem finditerRuns_pairwise (p : Char → Bool) (value : String) :
    (finditerRuns p value).Pairwise (fun a b => a.2 ≤ b.1) :=
  runsAux_pairwise p value.data 0 none (by intro s hs; cases hs)

/-- With char offsets active, the spans recorded by the regex tokenizer
loop are exactly the match spans shifted by `start_char`. -/
theorem spansOf_regexTokensAux (value : String) (positions : Bool) (sc : Nat) :
    ∀ (rs : List (Nat × Nat)) (pos : Nat),
      spansOf (regexTokensAux value positions true sc rs pos) =
        rs.map fun r => (sc + r.1, sc + r.2)
  | [], _ => rfl
  | (ms, me) :: rs, pos => by
    have ih := spansOf_regexTokensAux value positions sc rs (pos + 1)
    simp only [regexTokensAux, spansOf, List.filterMap_cons, List.map_cons] at ih ⊢
    simp [ih]

/-- Same as `spansOf_regexTokensAux` for the comma-separated loop: the
stripping of the token text does not touch the recorded span. -/
theorem spansOf_commaTokensAux (value : String) (positions : Bool) (sc : Nat) :
    ∀ (rs : List (Nat × Nat)) (pos : Nat),
      spansOf (commaTokensAux value positions true sc rs pos) =
        rs.map fun r => (sc + r.1, sc + r.2)
  | [], _ => rfl
  | (ms, me) :: rs, pos => by
    have ih := spansOf_commaTokensAux value positions sc rs (pos + 1)
    simp only [commaTokensAux, spansOf, List.filterMap_cons, List.map_cons] at ih ⊢
    simp [ih]

/-- Lemma: `Char.ofNat` round-trips on valid codepoints. -/
theorem toNat_ofNat_valid {n : Nat} (h : n.isValidChar) : (Char.ofNat n).toNat = n := by
  rw [Char.ofNat, dif_pos h]
  rfl

/-- Lemma: `Char.toLower` never returns an ASCII uppercase letter. -/
theorem toLower_not_upper (c : Char) :
    ¬(65 ≤ (Char.toLower c).toNat ∧ (Char.toLower c).toNat ≤ 90) := by
  rw [Char.toLower]
  split
  next h => rw [toNat_ofNat_valid (Or.inl (by omega))]; omega
  next h => exact h

/-- Lemma: `Char.toLower` is idempotent. -/
theorem toLower_idem (c : Char) : (Char.toLower c).toLower = c.toLower := by
  conv_lhs => rw [Char.toLower]
  exact if_neg (toLower_not_upper c)

/-- Python `str.lower()` (ASCII: per-character `Char.toLower`), the builtin
`LowerCaseFilter` applies. -/
def strLower (s : String) : String := ⟨s.data.map Char.toLower⟩

/-- Lemma: `str.lower()` is idempotent. -/
theorem strLower_idem (s : String) : strLower (strLower s) = strLower s := by
  simp [strLower, List.map_map, Function.comp_def, toLower_idem]

/-- Source `LowerCaseFilter` (lines 462-470): `t.text = t.text.lower()`, yield. -/
def LowerCaseFilter (ts : List Token) : List Token :=
  ts.map fun t => { t with text := t.text.map strLower }

/-- Source `PassFilter` (lines 268-274): yields every token untouched. -/
def PassFilter (ts : List Token) : List Token := ts

/-- Source `STOP_WORDS` (lines 57-60). -/
def STOP_WORDS : List String :=
  ["the", "to", "of", "a", "and", "is", "in", "this",
   "you", "for", "be", "on", "or", "will", "if", "can", "are",
   "that", "by", "with", "it", "as", "from", "an", "when",
   "not", "may", "tbd", "yet"]

/-- Source `StopFilter` state: the frozenset of stop words (membership is all that
matters, so a list) and the minimum text length. -/
structure StopFilter where
  stops : List String
  min : Nat
  deriving Repr, DecidableEq

/-- Source `StopFilter.__init__(stoplist=STOP_WORDS, minsize=2)` (lines 436-450):
a `None` stoplist becomes the empty set. -/
def StopFilter.init (stoplist : Option (List String)) (minsize : Nat) : StopFilter :=
  { stops := stoplist.getD [], min := minsize }

/-- Source `StopFilter.__call__` (lines 452-459): yield exactly the tokens with
`len(t.text) >= minsize and t.text not in stoplist`. -/
def StopFilter.call (f : StopFilter) (ts : List Token) : List Token :=
  ts.filter fun t =>
    match t.text with
    | some text => decide (f.min ≤ text.length) && !(f.stops.contains text)
    | none => false

/-- A plain text-carrying token, as a word tokenizer would produce it with
positions and char offsets off. -/
def mkTextToken (s : String) : Token :=
  { positions := false, chars := false, text := some s, original := some s,
    pos := none, startchar := none, endchar := none, stopped := false }

/-- Source `StandardAnalyzer` (lines 542-562): a default `RegexTokenizer` (`\w+`),
then `LowerCaseFilter`, then the stopper chosen at construction —
`PassFilter` when the stop list is explicitly `None`, otherwise a
`StopFilter` with the given list and minsize. -/
def StandardAnalyzer.call (stoplist : Option (List String)) (minsize : Nat)
    (value : String) (positions chars : Bool) (start_pos start_char : Nat) :
    List Token :=
  match stoplist with
  | none => PassFilter (LowerCaseFilter
      (RegexTokenizer.call isWordChar value positions chars start_pos start_char))
  | some sl => (StopFilter.init (some sl) minsize).call (LowerCaseFilter
      (RegexTokenizer.call isWordChar value positions chars start_pos start_char))

/-- One loop iteration of `StemFilter.__call__` (lines 353-367): given the
memo cache, produce the updated cache and the yielded element.  A yielded
element is either the token object or — in the cache-miss branch, which the
source ends with `yield s` — the bare stem string.  The stemming function
(`whoosh.lang.porter.stem`, not part of this file) is a parameter. -/
def stemStep (stemFn : String → String) (ignores : List String)
    (cache : List (String × String)) (t : Token) :
    List (String × String) × (Token ⊕ String) :=
  if t.stopped then (cache, Sum.inl t)
  else
    match t.text with
    | none => (cache, Sum.inl t)
    | some text =>
      if ignores.contains text then (cache, Sum.inl t)
      else
        match cache.lookup text with
        | some s => (cache, Sum.inl { t with text := some s })
        | none => ((text, stemFn text) :: cache, Sum.inr (stemFn text))

/-- Source `StemFilter.__call__`: iterate `stemStep` down the stream, threading
the cache. -/
def StemFilter.call (stemFn : String → String) (ignores : List String)
    (cache : List (String × String)) : List Token → List (Token ⊕ String)
  | [] => []
  | t :: rest =>
    (stemStep stemFn ignores cache t).2 ::
      StemFilter.call stemFn ignores (stemStep stemFn ignores cache t).1 rest

/-- Python `str.islower()` on ASCII text: at least one cased character and
no uppercase one. -/
def pyIslower (s : String) : Bool := s.data.any Char.isLower && !(s.data.any Char.isUpper)

/-- Python `str.isupper()` on ASCII text. -/
def pyIsupper (s : String) : Bool := s.data.any Char.isUpper && !(s.data.any Char.isLower)

/-- Python `str.isdigit()` on ASCII text: nonempty and all digits. -/
def pyIsdigit (s : String) : Bool := !s.isEmpty && s.data.all Char.isDigit

/-- Scanner for `_camel_exp = [A-Z][a-z]*|[a-z]+|[0-9]+` (line 370):
`re.finditer` tries the alternatives in order at each position, each
matching greedily, resumes after a match and skips one character when no
alternative matches.  `fuel` bounds the remaining characters so the
recursion is structural; callers pass the text length. -/
def camelScanAux : Nat → List Char → Nat → List (Nat × String)
  | 0, _, _ => []
  | _, [], _ => []
  | fuel + 1, c :: rest, i =>
    if c.isUpper then
      let run := rest.takeWhile Char.isLower
      (i, ⟨c :: run⟩) :: camelScanAux fuel (rest.drop run.length) (i + 1 + run.length)
    else if c.isLower then
      let run := rest.takeWhile Char.isLower
      (i, ⟨c :: run⟩) :: camelScanAux fuel (rest.drop run.length) (i + 1 + run.length)
    else if c.isDigit then
      let run := rest.takeWhile Char.isDigit
      (i, ⟨c :: run⟩) :: camelScanAux fuel (rest.drop run.length) (i + 1 + run.length)
    else
      camelScanAux fuel rest (i + 1)

/-- Source `_camel_exp.finditer(text)` as `(m.start(), m.group(0))` pairs. -/
def camelFinditer (text : String) : List (Nat × String) :=
  camelScanAux text.length text.data 0

/-- Per-token body of `CamelFilter` (lines 381-397): yield the token, then
— only if the text is truthy, not `islower()`, not `isupper()` and not
`isdigit()` — yield one token per camel sub-match whose text differs from
the whole word, shifting char offsets from the pre-loop `startchar`. -/
def camelTokenOut (t : Token) : List Token :=
  t :: (match t.text with
    | none => []
    | some text =>
      if !text.isEmpty && !(pyIslower text) && !(pyIsupper text) && !(pyIsdigit text) then
        (camelFinditer text).filterMap fun m =>
          if m.2 ≠ text then
            some { t with
                   text := some m.2,
                   startchar := if t.chars then t.startchar.map (· + m.1) else t.startchar,
                   endchar := if t.chars then t.startchar.map (· + m.1 + m.2.length)
                              else t.endchar }
          else none
      else [])

/-- Source `CamelFilter` (lines 371-397). -/
def CamelFilter (ts : List Token) : List Token := ts.flatMap camelTokenOut

/-- Every token the comma-separated tokenizer emits (with char offsets
active, at `start_char = sc`) records the span of some match and carries the
whitespace-stripped slice of that match as its text. -/
theorem commaTokensAux_mem (value : String) (positions : Bool) (sc : Nat) :
    ∀ (rs : List (Nat × Nat)) (pos : Nat) (t : Token),
      t ∈ commaTokensAux value positions true sc rs pos →
      ∃ ms me, t.startchar = some (sc + ms) ∧ t.endchar = some (sc + me) ∧
        t.text = some (pyStrip (sliceStr value ms me))
  | [], _, t, ht => by simp [commaTokensAux] at ht
  | (ms, me) :: rs, pos, t, ht => by
    rw [commaTokensAux] at ht
    rcases List.mem_cons.mp ht with h | h
    · subst h
      exact ⟨ms, me, by simp, by simp, rfl⟩
    · exact commaTokensAux_mem value positions sc rs (pos + 1) t h

/-- Claim `C5` counterexample: the n-gram tokenizer with `minsize=3, maxsize=4` on
`"hello"` (char offsets active, `start_char = 0`) emits the spans
`(0,3), (0,4), (1,4), (1,5)`; the first two spans overlap, so the claimed
pairwise non-overlap fails for the n-gram tokenizer. -/
theorem C5_ngram_spans_overlap :
    spansOf ((NgramTokenizer.init 3 (some 4)).call "hello" false true 0 0) =
      [(0, 3), (0, 4), (1, 4), (1, 5)] ∧
    ¬ (spansOf ((NgramTokenizer.init 3 (some 4)).call "hello" false true 0 0)).Pairwise
        (fun a b => a.2 ≤ b.1) := by
  constructor
  · rfl
  · decide

/-- Claim `C5` (amended): for the identity tokenizer and the maximal-run regex
tokenizers (the default `\w+` pattern, space- and comma-separated are the
instances of the predicate `p`), the emitted `[startchar, endchar)` spans
are in-bounds spans of the input, each earlier span ends no later than any
later span starts (pairwise non-overlapping), and start offsets are
non-decreasing.  The n-gram tokenizer is excluded: its spans overlap
(`C5_ngram_spans_overlap`). -/
theorem C5_run_tokenizer_spans (p : Char → Bool) (value : String)
    (positions : Bool) (start_pos : Nat) :
    (∀ r ∈ spansOf (RegexTokenizer.call p value positions true start_pos 0),
        r.1 < r.2 ∧ r.2 ≤ value.length) ∧
    (spansOf (RegexTokenizer.call p value positions true start_pos 0)).Pairwise
      (fun a b => a.2 ≤ b.1) ∧
    (spansOf (RegexTokenizer.call p value positions true start_pos 0)).Pairwise
      (fun a b => a.1 ≤ b.1) ∧
    (∀ r ∈ spansOf (CommaSeparatedTokenizer.call value positions true start_pos 0),
        r.1 < r.2 ∧ r.2 ≤ value.length) ∧
    (spansOf (CommaSeparatedTokenizer.call value positions true start_pos 0)).Pairwise
      (fun a b => a.2 ≤ b.1) ∧
    spansOf (IDTokenizer value positions true start_pos 0) = [(0, value.length)] := by
  have hre : spansOf (RegexTokenizer.call p value positions true start_pos 0) =
      finditerRuns p value := by
    rw [RegexTokenizer.call, spansOf_regexTokensAux]
    simp
  have hcm : spansOf (CommaSeparatedTokenizer.call value positions true start_pos 0) =
      finditerRuns isNotComma value := by
    rw [CommaSeparatedTokenizer.call, spansOf_commaTokensAux]
    simp
  refine ⟨?_, ?_, ?_, ?_, ?_, ?_⟩
  · rw [hre]; exact finditerRuns_bounds p value
  · rw [hre]; exact finditerRuns_pairwise p value
  · rw [hre]
    refine (finditerRuns_pairwise p value).imp_of_mem ?_
    intro a b ha _ hab
    have := finditerRuns_bounds p value a ha
    omega
  · rw [hcm]; exact finditerRuns_bounds isNotComma value
  · rw [hcm]; exact finditerRuns_pairwise isNotComma value
  · simp [IDTokenizer, spansOf]

/-- Claim `C5` witness: the amended theorem at the word-character pattern on
`"aa bb"`, whose spans evaluate to `[(0,2), (3,5)]`. -/
theorem C5_run_tokenizer_spans_witness :
    spansOf (RegexTokenizer.call isWordChar "aa bb" false true 0 0) = [(0, 2), (3, 5)] ∧
    (spansOf (RegexTokenizer.call isWordChar "aa bb" false true 0 0)).Pairwise
      (fun a b => a.2 ≤ b.1) :=
  ⟨by decide, (C5_run_tokenizer_spans isWordChar "aa bb" false 0).2.1⟩

/-- Claim `C10`: every token of the comma-separated tokenizer (char offsets
active, `start_char = 0`) has `text = value[startchar:endchar].strip()`
while the span still covers the unstripped match; on `"hi, there"` the
second match `" there"` gives text `"there"` with span `(3, 9)`, whose
width `6` exceeds `len("there") = 5`, and `value[3:9] = " there"` differs
from the token text. -/
theorem C10_comma_text_stripped_span (value : String) (positions : Bool)
    (start_pos : Nat) :
    (∀ t ∈ CommaSeparatedTokenizer.call value positions true start_pos 0,
      ∃ s e, t.startchar = some s ∧ t.endchar = some e ∧
        t.text = some (pyStrip (sliceStr value s e))) ∧
    ((CommaSeparatedTokenizer.call "hi, there" true true 0 0).map
        (fun t => (t.text, t.startchar, t.endchar)) =
      [(some "hi", some 0, some 2), (some "there", some 3, some 9)]) ∧
    ("there".length < 9 - 3 ∧ sliceStr "hi, there" 3 9 ≠ "there") := by
  refine ⟨?_, by rfl, by decide⟩
  intro t ht
  obtain ⟨ms, me, h1, h2, h3⟩ :=
    commaTokensAux_mem value positions 0 (finditerRuns isNotComma value) start_pos t ht
  exact ⟨ms, me, by simpa using h1, by simpa using h2, h3⟩

/-- Claim `C10` witness: the general span/strip property applied to the concrete
second token of `CommaSeparatedTokenizer()("hi, there")`. -/
theorem C10_comma_text_stripped_span_witness :
    ∃ s e,
      (Token.mk true true (some "there") (some "there") (some 1) (some 3) (some 9)
        false).startchar = some s ∧
      (Token.mk true true (some "there") (some "there") (some 1) (some 3) (some 9)
        false).endchar = some e ∧
      (Token.mk true true (some "there") (some "there") (some 1) (some 3) (some 9)
        false).text = some (pyStrip (sliceStr "hi, there" s e)) :=
  (C10_comma_text_stripped_span "hi, there" true 0).1
    (Token.mk true true (some "there") (some "there") (some 1) (some 3) (some 9) false)
    (by decide)

/-- Claim `C2`: the n-gram tokenizer with `minsize=3, maxsize=4` on `"hello"`.
The claim (and the class docstring, lines 222-224) says five tokens with
texts `"hel", "hell", "ell", "ello", "llo"`.  The code's outer loop
`xrange(0, inlen - self.min)` stops one start offset early and `t.text` is
never assigned, so it actually yields four tokens none of which carries a
text. -/
theorem C2_ngram_hello_four_textless_tokens :
    ((NgramTokenizer.init 3 (some 4)).call "hello" false false 0 0).length = 4 ∧
    ((NgramTokenizer.init 3 (some 4)).call "hello" false false 0 0).map Token.text =
      [none, none, none, none] := by
  constructor <;> rfl

/-- Claim `C1`: on input `"hello"` with `minsize=3, maxsize=4` and positions and
char offsets active (`start_pos = start_char = 0`), the yielded tokens have
`pos` incrementing once per start offset and `startchar/endchar = i, i + s`
exactly as the claim states, but every `text` slot is unassigned (`none`)
where the claim requires `text = value[i : i+s]`: the source never executes
a `t.text = ...` assignment. -/
theorem C1_ngram_text_never_assigned :
    ((NgramTokenizer.init 3 (some 4)).call "hello" true true 0 0).map
        (fun t => (t.text, t.pos, t.startchar, t.endchar)) =
      [(none, some 0, some 0, some 3),
       (none, some 0, some 0, some 4),
       (none, some 1, some 1, some 4),
       (none, some 1, some 1, some 5)] := by
  rfl

/-- Claim `C4` counterexample: constructing an n-gram tokenizer and an n-gram
filter with `maxsize = 2 < 3 = minsize` does not fail: both `__init__`
bodies are straight-line assignments with no validation, and construction
returns the component with the invalid sizes stored. -/
theorem C4_construction_never_fails :
    NgramTokenizer.init 3 (some 2) = { min := 3, max := 2 } ∧
    NgramFilter.init 3 (some 2) = { min := 3, max := 2 } := by
  constructor <;> rfl

/-- Claim `C4` (amended): n-gram components perform no size validation at
construction: `__init__` always succeeds, storing `min = minsize` and
`max = maxsize or minsize`.  When `max < min` the misconfiguration is never
surfaced as an error at all: the inner gram loop `xrange(min, max+1)` is
empty, so invoking the tokenizer or the filter yields no tokens. -/
theorem C4_no_validation_silent_empty (minsize m : Nat) (hm : m ≠ 0)
    (hlt : m < minsize) :
    NgramTokenizer.init minsize (some m) = { min := minsize, max := m } ∧
    NgramFilter.init minsize (some m) = { min := minsize, max := m } ∧
    (∀ value positions chars start_pos start_char,
      (NgramTokenizer.init minsize (some m)).call value positions chars
        start_pos start_char = []) ∧
    (∀ ts, (NgramFilter.init minsize (some m)).call ts = []) := by
  have hmax : (m + 1) - minsize = 0 := by omega
  refine ⟨by simp [NgramTokenizer.init, hm], by simp [NgramFilter.init, hm], ?_, ?_⟩
  · intro value positions chars start_pos start_char
    simp [NgramTokenizer.call, NgramTokenizer.init, hm, pyRange, hmax]
  · intro ts
    simp only [NgramFilter.call, NgramFilter.init, hm, if_neg hm, pyRange, hmax]
    simp [List.flatMap]
    intro t _
    cases t.text <;> simp
    omega

/-- Claim `C4` witness: instantiating the amended theorem at `minsize = 3`,
`maxsize = 2`, input `"hello"`. -/
theorem C4_no_validation_silent_empty_witness :
    NgramTokenizer.init 3 (some 2) = { min := 3, max := 2 } ∧
    NgramFilter.init 3 (some 2) = { min := 3, max := 2 } ∧
    (∀ value positions chars start_pos start_char,
      (NgramTokenizer.init 3 (some 2)).call value positions chars
        start_pos start_char = []) ∧
    (∀ ts, (NgramFilter.init 3 (some 2)).call ts = []) :=
  C4_no_validation_silent_empty 3 2 (by decide) (by decide)

/-- Claim `C3`: on a cache miss the stem filter's source ends with `yield s` —
it emits the bare stem *string* instead of the token, for every stemming
function.  A fresh filter fed two identical unstopped, unignored tokens
`"rendering"` emits the string `stemFn "rendering"` for the first (the
miss) and, only for the second (the cache hit), a token with its text
replaced by the cached stem as the claim describes. -/
theorem C3_stem_cache_miss_yields_string (stemFn : String → String) :
    StemFilter.call stemFn [] [] [mkTextToken "rendering", mkTextToken "rendering"] =
      [Sum.inr (stemFn "rendering"),
       Sum.inl { mkTextToken "rendering" with text := some (stemFn "rendering") }] := by
  simp [StemFilter.call, stemStep, mkTextToken, List.lookup]

/-- Claim `C6`: the standard analyzer is the `\w+` regex tokenizer followed by
the lowercase filter followed by the stop filter (the pass filter exactly
when the stop list is `None`); with default settings on
`"The Quick Fox JUMPS"` it yields the texts `"quick", "fox", "jumps"` in
order (`"The"` is lowercased to a stop word and removed). -/
theorem C6_standard_analyzer :
    ((StandardAnalyzer.call (some STOP_WORDS) 2 "The Quick Fox JUMPS"
        false false 0 0).map Token.text =
      [some "quick", some "fox", some "jumps"]) ∧
    (∀ sl minsize value positions chars start_pos start_char,
      StandardAnalyzer.call (some sl) minsize value positions chars
          start_pos start_char =
        (StopFilter.init (some sl) minsize).call (LowerCaseFilter
          (RegexTokenizer.call isWordChar value positions chars
            start_pos start_char))) ∧
    (∀ minsize value positions chars start_pos start_char,
      StandardAnalyzer.call none minsize value positions chars
          start_pos start_char =
        PassFilter (LowerCaseFilter
          (RegexTokenizer.call isWordChar value positions chars
            start_pos start_char))) :=
  ⟨by decide, fun _ _ _ _ _ _ _ => rfl, fun _ _ _ _ _ _ => rfl⟩

/-- Claim `C7`: the camel-case filter on `"getProcessedToken"` yields the whole
word followed by `"get"`, `"Processed"`, `"Token"` in order; and any token
whose text is empty, uniformly lower-case, uniformly upper-case, or purely
numeric is passed through as the sole output. -/
theorem C7_camel_filter :
    ((CamelFilter [mkTextToken "getProcessedToken"]).map Token.text =
      [some "getProcessedToken", some "get", some "Processed", some "Token"]) ∧
    (∀ (t : Token) (s : String), t.text = some s →
      (s = "" ∨ pyIslower s = true ∨ pyIsupper s = true ∨ pyIsdigit s = true) →
      CamelFilter [t] = [t]) := by
  refine ⟨by decide, ?_⟩
  intro t s hs hcond
  rcases hcond with h | h | h | h <;>
    simp [CamelFilter, camelTokenOut, hs, h, String.isEmpty]

/-- Claim `C7` witness: the pass-through cases at concrete tokens — an
all-lowercase, an all-uppercase and a purely numeric text. -/
theorem C7_camel_filter_witness :
    CamelFilter [mkTextToken "hello"] = [mkTextToken "hello"] ∧
    CamelFilter [mkTextToken "HELLO"] = [mkTextToken "HELLO"] ∧
    CamelFilter [mkTextToken "123"] = [mkTextToken "123"] :=
  ⟨C7_camel_filter.2 (mkTextToken "hello") "hello" rfl (Or.inr (Or.inl (by decide))),
   C7_camel_filter.2 (mkTextToken "HELLO") "HELLO" rfl
     (Or.inr (Or.inr (Or.inl (by decide)))),
   C7_camel_filter.2 (mkTextToken "123") "123" rfl
     (Or.inr (Or.inr (Or.inr (by decide))))⟩

/-- Claim `C8`: the stop filter keeps a token exactly when its text length
reaches `minsize` and its text is not in the word set; it is a sublist
of its input (tokens pass through unchanged and in order); with default settings it
removes `"the"`, `"a"`, `"is"` from a stream and keeps the rest in order. -/
theorem C8_stop_filter (stops : List String) (minsize : Nat) (ts : List Token)
    (t : Token) (s : String) (ht : t ∈ ts) (hs : t.text = some s) :
    List.Sublist ((StopFilter.init (some stops) minsize).call ts) ts ∧
    (t ∈ (StopFilter.init (some stops) minsize).call ts ↔
      minsize ≤ s.length ∧ s ∉ stops) ∧
    (StopFilter.init (some STOP_WORDS) 2).call
        (["the", "quick", "a", "fox", "is", "fast"].map mkTextToken) =
      ["quick", "fox", "fast"].map mkTextToken := by
  refine ⟨List.filter_sublist _, ?_, by decide⟩
  rw [StopFilter.call, List.mem_filter]
  simp [ht, hs, StopFilter.init]

/-- Claim `C8` witness: the keep-iff condition applied to the concrete token
`"quick"` inside the stream `["the", "quick"]` under default settings. -/
theorem C8_stop_filter_witness :
    mkTextToken "quick" ∈ (StopFilter.init (some STOP_WORDS) 2).call
      [mkTextToken "the", mkTextToken "quick"] :=
  (C8_stop_filter STOP_WORDS 2 [mkTextToken "the", mkTextToken "quick"]
      (mkTextToken "quick") "quick" (by decide) rfl).2.1.mpr (by decide)

/-- Claim `C9`: the lowercase filter is idempotent — applying it twice produces
the same token texts as applying it once (for every stream, including
tokens whose text slot is unassigned). -/
theorem C9_lowercase_idempotent (ts : List Token) :
    (LowerCaseFilter (LowerCaseFilter ts)).map Token.text =
      (LowerCaseFilter ts).map Token.text := by
  simp [LowerCaseFilter, List.map_map, Function.comp_def, Option.map_map,
    strLower_idem]
